import Mathlib

/-!
# ApacheDrill.query: the shape of the grid it resolves with

A shallow embedding of `src/backend/persistent/datastores/ApacheDrill.js`.

`query` posts the statement to `<host>:<port>/query.json`, decodes the body of
the response as JSON and settles its promise from the decoded payload:

    const {errorMessage, rows, columns} = json;
    if (errorMessage) {
        reject({message: errorMessage});
    } else {
        resolve({
            rows: rows.map(row => columns.map(c => row[c])),
            columnnames: columns
        });
    }

A promise is modelled by the value it settles with: `Except.ok` for `resolve`,
`Except.error` for `reject`.  An exception thrown inside a `.then` callback
reaches `.catch(reject)` and is therefore a rejection too.
-/

set_option autoImplicit false

namespace ApacheDrill

/-! ## Values -/

/-- A decoded JSON value, as `response.json()` hands it to the callback.  A
record is the list of its fields; reading a field takes the first entry of
that name.  Numbers are decoded numbers; the code never computes with one, it
only tests `errorMessage` for truthiness, where zero is the falsy number. -/
inductive Json where
  | null
  | bool (b : Bool)
  | num (q : Rat)
  | str (s : String)
  | arr (items : List Json)
  | obj (fields : List (String × Json))

/-- A JavaScript value the callback can hold: a decoded JSON value, the
`undefined` that reading an absent property gives, or a built-in object that
a property read reaches through a prototype (named by the property). -/
inductive JsValue where
  | undefined
  | json (j : Json)
  | native (name : String)

/-- The canonical result shape `{rows, columnnames}`.  `rows` is always the
array of arrays that the two nested `map` calls build; `columnnames` is
whatever `columns` was. -/
structure Grid where
  rows : List (List JsValue)
  columnnames : JsValue

/-- What the promise of `query` can reject with: the record `{message: m}`,
a `TypeError` thrown while reshaping, or the error `e` of the request. -/
inductive Failure (ε : Type) where
  | message (m : JsValue)
  | typeError
  | raised (e : ε)

/-- The settled promise of `query`. -/
abbrev Outcome (ε : Type) := Except (Failure ε) Grid

/-! ## Property reads -/

/-- The property names of `Object.prototype`, which every decoded record
inherits. -/
def objectPrototypeNames : List String :=
  ["constructor", "__defineGetter__", "__defineSetter__", "hasOwnProperty",
   "__lookupGetter__", "__lookupSetter__", "isPrototypeOf",
   "propertyIsEnumerable", "toString", "valueOf", "__proto__", "toLocaleString"]

/-- The value of `record[name]` for a decoded record: its own field when it has
one, else the member of `Object.prototype` of that name, else `undefined`. -/
def readRecord (fields : List (String × Json)) (name : String) : JsValue :=
  match fields.lookup name with
  | some v => .json v
  | none => if name ∈ objectPrototypeNames then .native name else .undefined

/-- The property read `row[c]` on decoded values.  Reading from `null` throws a
`TypeError`.  A record read under a string is `readRecord`.  Every other read
(an array, a string, a number or a boolean as receiver, or a key that is not a
string) is what the engine defines, taken here as the parameter `engine`: the
value read, or `none` when the read throws a `TypeError`, as it does under a
key that is a record whose own `toString` and `valueOf` give no primitive. -/
def getV {ε : Type} (engine : Json → Json → Option JsValue) (row c : Json) :
    Except (Failure ε) JsValue :=
  match row, c with
  | .null, _ => .error .typeError
  | .obj fields, .str name => .ok (readRecord fields name)
  | row, c =>
    match engine row c with
    | some v => .ok v
    | none => .error .typeError

/-- ToBoolean: the test `if (errorMessage)`. -/
def truthy : JsValue → Bool
  | .undefined => false
  | .json .null => false
  | .json (.bool b) => b
  | .json (.num q) => decide (q ≠ 0)
  | .json (.str s) => decide (s ≠ "")
  | .json (.arr _) => true
  | .json (.obj _) => true
  | .native _ => true

/-- `Array.prototype.map` with a callback that may throw: the elements are
visited in order and the first exception ends the call. -/
def arrayMap {ε α β : Type} (f : α → Except ε β) : List α → Except ε (List β)
  | [] => .ok []
  | x :: xs =>
    match f x with
    | .error e => .error e
    | .ok y =>
      match arrayMap f xs with
      | .error e => .error e
      | .ok ys => .ok (y :: ys)

/-- `const {errorMessage, rows, columns} = json`.  Destructuring `null` throws;
a record gives its three properties; any other decoded value (an array, a
string, a number, a boolean) has none of the three and gives `undefined` for
each. -/
def destructure {ε : Type} : Json → Except (Failure ε) (JsValue × JsValue × JsValue)
  | .null => .error .typeError
  | .obj fields =>
    .ok (readRecord fields "errorMessage", readRecord fields "rows",
         readRecord fields "columns")
  | _ => .ok (.undefined, .undefined, .undefined)

/-- `columns.map(c => row[c])`: a `TypeError` unless `columns` is an array. -/
def mapColumns {ε : Type} (engine : Json → Json → Option JsValue) (columns : JsValue)
    (row : Json) : Except (Failure ε) (List JsValue) :=
  match columns with
  | .json (.arr cs) => arrayMap (fun c => getV engine row c) cs
  | _ => .error .typeError

/-- `rows.map(row => columns.map(c => row[c]))`: a `TypeError` unless `rows`
is an array. -/
def mapRows {ε : Type} (engine : Json → Json → Option JsValue) (rows columns : JsValue) :
    Except (Failure ε) (List (List JsValue)) :=
  match rows with
  | .json (.arr rs) => arrayMap (mapColumns engine columns) rs
  | _ => .error .typeError

/-- The callback `json => {...}` of lines 28 to 38, followed by
`.catch(reject)`. -/
def settle {ε : Type} (engine : Json → Json → Option JsValue) (json : Json) : Outcome ε :=
  match destructure json with
  | .error e => .error e
  | .ok (errorMessage, rows, columns) =>
    if truthy errorMessage then
      .error (.message errorMessage)
    else
      match mapRows engine rows columns with
      | .error e => .error e
      | .ok rs => .ok { rows := rs, columnnames := columns }

/-! ## The request -/

/-- The `connection` argument, reduced to the two fields `query` reads, each
as the text the template literal makes of it. -/
structure Connection where
  host : String
  port : String

/-- The argument of `JSON.stringify` on lines 22 to 25. -/
structure Body where
  queryType : String
  query : String

/-- One outbound call of `fetch`. -/
structure Request where
  url : String
  headers : List (String × String)
  method : String
  body : Body

/-- A response of the backend: what `response.json()` settles with. -/
structure Response (ε : Type) where
  json : Except ε Json

/-- The network as `query` sees it: the requests sent so far and, for the
request sent as number `k`, what `fetch` settles with. -/
structure Net (ε : Type) where
  sent : List Request
  reply : Nat → Request → Except ε (Response ε)

/-- One call of `fetch`: the request is recorded and the network answers. -/
def fetch {ε : Type} (request : Request) (net : Net ε) :
    Except ε (Response ε) × Net ε :=
  (net.reply net.sent.length request, { net with sent := net.sent ++ [request] })

/-- The request `query` builds on lines 12 to 26. -/
def request (queryStatement : String) (connection : Connection) : Request :=
  { url := connection.host ++ ":" ++ connection.port ++ "/query.json"
    headers := [("Accept", "application/json"), ("Content-Type", "application/json")]
    method := "POST"
    body := { queryType := "SQL", query := queryStatement } }

/-- `query(queryStatement, connection)`: the settled promise and the network
after the call. -/
def query {ε : Type} (engine : Json → Json → Option JsValue) (queryStatement : String)
    (connection : Connection) (net : Net ε) : Outcome ε × Net ε :=
  match fetch (request queryStatement connection) net with
  | (.error e, net1) => (.error (.raised e), net1)
  | (.ok response, net1) =>
    match response.json with
    | .error e => (.error (.raised e), net1)
    | .ok json => (settle engine json, net1)

/-- The request of `query` is answered by a response whose body decodes to
`payload`. -/
def Answers {ε : Type} (net : Net ε) (queryStatement : String)
    (connection : Connection) (payload : Json) : Prop :=
  ∃ response, net.reply net.sent.length (request queryStatement connection) = .ok response
    ∧ response.json = .ok payload

/-- The property `name` of the payload as the callback destructures it:
the record's property, and `undefined` on a payload that is not a record. -/
def field (payload : Json) (name : String) : JsValue :=
  match payload with
  | .obj fields => readRecord fields name
  | _ => .undefined

/-- The value is an array in which no entry occurs twice. -/
def UniqueNames (v : JsValue) : Prop :=
  ∃ items, v = .json (.arr items) ∧ items.Nodup

/-- The cell `rows[i][j]` of a grid, when the grid has one there. -/
def Grid.cell (g : Grid) (i j : Nat) : Option JsValue :=
  match g.rows[i]? with
  | some row => row[j]?
  | none => none

/-- The length of a value that is an array. -/
def JsValue.arrayLength : JsValue → Option Nat
  | .json (.arr items) => some items.length
  | _ => none

/-- The engine used in the examples: every read it is asked for is
`undefined`. -/
def plainEngine : Json → Json → Option JsValue := fun _ _ => some .undefined

/-- A connection used in the examples. -/
def sampleConnection : Connection := { host := "http://localhost", port := "8047" }

/-- A payload of two raw rows under the columns `a` and `b`; the second row
has no field `b` and carries a field `z` that is not a column. -/
def samplePayload : Json :=
  .obj [("columns", .arr [.str "a", .str "b"]),
        ("rows", .arr [.obj [("a", .num 1), ("b", .str "x")],
                       .obj [("z", .bool true), ("a", .num 2)]])]

/-- A payload whose `errorMessage` is present and empty, next to one row. -/
def emptyMessagePayload : Json :=
  .obj [("errorMessage", .str ""), ("columns", .arr [.str "a"]),
        ("rows", .arr [.obj [("a", .num 1)]])]

/-- A payload of a failed query. -/
def failedPayload : Json :=
  .obj [("errorMessage", .str "PARSE ERROR: Encountered FORM at line 1, column 10")]

/-- A payload with no rows and no `columns` at all. -/
def noColumnsPayload : Json :=
  .obj [("rows", .arr [])]

/-- A payload with a header and no `rows` at all. -/
def noRowsPayload : Json :=
  .obj [("columns", .arr [.str "a"])]

/-- A payload with one row and no `columns` at all. -/
def headlessPayload : Json :=
  .obj [("rows", .arr [.obj [("a", .num 1)]])]

/-- A payload whose header names the column `a` twice. -/
def repeatedColumnPayload : Json :=
  .obj [("columns", .arr [.str "a", .str "a"]), ("rows", .arr [.obj [("a", .num 1)]])]

/-- A network whose first request fails with the error `e`. -/
def downNet (e : String) : Net String :=
  { sent := [], reply := fun _ _ => .error e }

/-- Two raw rows agree under the entry `c` of `columns`: two records hold the
same value under the name `c`, or both hold none; for any other read (a row
that is not a record, an entry that is not a string) the two rows are the same
value. -/
def AgreeOn (row1 row2 c : Json) : Prop :=
  match row1, row2, c with
  | .obj fields1, .obj fields2, .str name => fields1.lookup name = fields2.lookup name
  | row1, row2, _ => row1 = row2

/-- The sample payload again, with the fields of its rows in another order, a
field `secret` that is not a column in the first row, no field `z` in the
second, and a payload field `queryId`. -/
def variantPayload : Json :=
  .obj [("queryId", .str "2b5e"),
        ("columns", .arr [.str "a", .str "b"]),
        ("rows", .arr [.obj [("b", .str "x"), ("secret", .str "s"), ("a", .num 1)],
                       .obj [("a", .num 2)]])]

/-- Another connection used in the examples. -/
def otherConnection : Connection := { host := "http://drill.example.com", port := "8048" }

/-- A network that answers every request with the payload. -/
def netOf (payload : Json) : Net Unit :=
  { sent := [], reply := fun _ _ => .ok { json := .ok payload } }

end ApacheDrill

/-!
# The search-index query: scrolling past the single-request cap

The search-index adapter is not among the source files; only its tests are
(`query returns more than 10K rows`, `query returns all the data when size is
larger than the dataset`).  The definitions of this section follow the
specification, sections 4.1, 4.2, 4.4 and 4.5.
-/

namespace Elasticsearch

/-- Modelled from the spec: the backend's single-request window of section 4.2
("observed cap: 10,000 per request"). -/
def cap : Nat := 10000

/-- Modelled from the spec: the cursor token of the glossary, "an opaque handle
a search-index backend returns to let a client fetch the next page".  The
coordinator only stores it and hands it back; for the backend it names the
position reached in the result set and the size of a page. -/
structure CursorToken where
  position : Nat
  pageSize : Nat

/-- Modelled from the spec: the `RawPayload` of section 4.1 for the search
index: the hits of one page, the number of matching documents the backend
reports, and the cursor token when one is returned. -/
structure RawPayload (Doc : Type) where
  hits : List Doc
  totalAvailable : Nat
  cursorToken : Option CursorToken

/-- Modelled from the spec: the search-index `BackendAdapter` of section 4.1,
`issue` for the initial query with its window and `issueScrollPage` for the
next page of a cursor; each either returns a payload or fails. -/
structure BackendAdapter (Doc : Type) where
  issue : Nat → Except String (RawPayload Doc)
  issueScrollPage : CursorToken → Except String (RawPayload Doc)

/-- Modelled from the spec: a search index holding the matching documents
`docs`.  A request for a window above the cap is refused; the initial query
returns the first `window` documents and a cursor; every scroll page returns
the next `pageSize` documents, and an empty page once none are left. -/
def index {Doc : Type} (docs : List Doc) : BackendAdapter Doc where
  issue := fun window =>
    if cap < window then
      .error "Result window is too large"
    else
      .ok { hits := docs.take window
            totalAvailable := docs.length
            cursorToken := some { position := window, pageSize := window } }
  issueScrollPage := fun token =>
    .ok { hits := (docs.drop token.position).take token.pageSize
          totalAvailable := docs.length
          cursorToken := some { position := token.position + token.pageSize
                                pageSize := token.pageSize } }

/-- Modelled from the spec: the `ScrollState` of section 3. -/
structure ScrollState where
  cursorToken : Option CursorToken
  pageSize : Nat
  totalRetrieved : Nat
  targetSize : Nat
  exhausted : Bool

/-- Modelled from the spec: step 2 of section 4.2, "while `totalRetrieved < N`
and a cursor token is present and the last page was non-empty: issue
`issueScrollPage(cursorToken)`, append its hits, update `totalRetrieved`";
an empty page marks the state exhausted.  A failed page is surfaced at once. -/
def scrollPages {Doc : Type} (backend : BackendAdapter Doc) (state : ScrollState)
    (acc : List Doc) : Except String (List Doc) :=
  if h : state.totalRetrieved < state.targetSize ∧ state.exhausted = false then
    match state.cursorToken with
    | none => .ok acc
    | some token =>
      match backend.issueScrollPage token with
      | .error e => .error e
      | .ok page =>
        scrollPages backend
          { cursorToken := page.cursorToken
            pageSize := state.pageSize
            totalRetrieved := state.totalRetrieved + page.hits.length
            targetSize := state.targetSize
            exhausted := page.hits.isEmpty }
          (acc ++ page.hits)
  else
    .ok acc
termination_by (state.targetSize - state.totalRetrieved) + (if state.exhausted then 0 else 1)
decreasing_by
  obtain ⟨hlt, hex⟩ := h
  simp only [hex]
  cases page.hits with
  | nil => simp
  | cons d ds =>
    simp only [List.isEmpty_cons, List.length_cons]
    simp
    omega

/-- Modelled from the spec: the `ScrollCoordinator` of section 4.2: the initial
query with window `min(N, cap)` (step 1), the scroll pages (step 2) and the
truncation of the accumulated hits to `min(N, totalAvailable)` (step 3).  The
release of the cursor (step 4) does not touch the result and is left out. -/
def scroll {Doc : Type} (backend : BackendAdapter Doc) (N : Nat) : Except String (List Doc) :=
  match backend.issue (min N cap) with
  | .error e => .error e
  | .ok first =>
    match scrollPages backend
        { cursorToken := first.cursorToken
          pageSize := min N cap
          totalRetrieved := first.hits.length
          targetSize := N
          exhausted := first.hits.isEmpty }
        first.hits with
    | .error e => .error e
    | .ok acc => .ok (acc.take (min N first.totalAvailable))

/-- Modelled from the spec: the grid of section 3, with `none` for the
null cell. -/
structure Grid (Cell : Type) where
  columnnames : List String
  rows : List (List (Option Cell))

/-- Modelled from the spec: steps 1 and 2 of the `GridAssembler`, section 4.4:
the columns are the fields of the documents in first-seen order, and every
document gives one row with one cell per column, null where the document has
no such field. -/
def assemble {Cell : Type} (docs : List (List (String × Cell))) : Grid Cell :=
  let columnnames := (docs.flatMap (fun doc => doc.map Prod.fst)).eraseDups
  { columnnames := columnnames
    rows := docs.map (fun doc => columnnames.map (fun c => doc.lookup c)) }

/-- Modelled from the spec: the search-index, non-aggregated line of the
dispatch table of section 4.5: "raw hits → (ScrollCoordinator if size > cap)
→ GridAssembler". -/
def query {Cell : Type} (backend : BackendAdapter (List (String × Cell))) (size : Nat) :
    Except String (Grid Cell) :=
  if cap < size then
    match scroll backend size with
    | .error e => .error e
    | .ok hits => .ok (assemble hits)
  else
    match backend.issue size with
    | .error e => .error e
    | .ok page => .ok (assemble page.hits)

end Elasticsearch

/-!
# transpose

The helper of `src/test/backend/Datastores.spec.js`, line 16, with which the
tests write the expected rows of a grid column by column:

    const transpose = m => m[0].map((x, i) => m.map(x => x[i]));
-/

namespace Datastores

open ApacheDrill (JsValue Json)

/-- The exception a call of `transpose` can end with. -/
inductive Thrown where
  | typeError

/-- The read `x[i]` of an array at an index: its entry there, and `undefined`
past its end. -/
def readIndex (x : List JsValue) (i : Nat) : JsValue :=
  match x[i]? with
  | some v => v
  | none => .undefined

/-- `transpose(m)` for an array of arrays `m`.  On the empty array `m[0]` is
`undefined` and the call of `map` on it throws a `TypeError`.  Otherwise the
outer `map` runs over the indices `i` of `m[0]` and the inner `map` reads
every array of `m` at `i`. -/
def transpose (m : List (List JsValue)) : Except Thrown (List (List JsValue)) :=
  match m[0]? with
  | none => .error .typeError
  | some first => .ok (first.mapIdx (fun i _ => m.map (fun x => readIndex x i)))

/-- The entry `t[i][j]` of a matrix, when it has one there. -/
def entry (t : List (List JsValue)) (i j : Nat) : Option JsValue :=
  match t[i]? with
  | some row => row[j]?
  | none => none

/-- A number as an entry of a matrix. -/
def number (q : Rat) : JsValue := .json (.num q)

end Datastores

namespace ApacheDrill

/-! ## Lemmas on the reshaping -/

theorem arrayMap_length {ε α β : Type} (f : α → Except ε β) :
    ∀ (xs : List α) (ys : List β), arrayMap f xs = .ok ys → ys.length = xs.length
  | [], ys, h => by
    simp only [arrayMap, Except.ok.injEq] at h
    subst h; rfl
  | x :: xs, ys, h => by
    simp only [arrayMap] at h
    cases hx : f x with
    | error e => rw [hx] at h; cases h
    | ok y =>
      rw [hx] at h
      cases hxs : arrayMap f xs with
      | error e => rw [hxs] at h; cases h
      | ok zs =>
        rw [hxs] at h
        simp only [Except.ok.injEq] at h
        subst h
        simp [arrayMap_length f xs zs hxs]

theorem arrayMap_getElem {ε α β : Type} (f : α → Except ε β) :
    ∀ (xs : List α) (ys : List β), arrayMap f xs = .ok ys →
      ∀ (i : Nat) (x : α), xs[i]? = some x → ∃ y, f x = .ok y ∧ ys[i]? = some y
  | [], _, _, i, x, hi => by simp at hi
  | x0 :: xs, ys, h, i, x, hi => by
    simp only [arrayMap] at h
    cases hx : f x0 with
    | error e => rw [hx] at h; cases h
    | ok y =>
      rw [hx] at h
      cases hxs : arrayMap f xs with
      | error e => rw [hxs] at h; cases h
      | ok zs =>
        rw [hxs] at h
        simp only [Except.ok.injEq] at h
        subst h
        cases i with
        | zero =>
          simp only [List.getElem?_cons_zero, Option.some.injEq] at hi
          subst hi
          exact ⟨y, hx, by simp⟩
        | succ k =>
          simp only [List.getElem?_cons_succ] at hi
          obtain ⟨y1, hy1, hk⟩ := arrayMap_getElem f xs zs hxs k x hi
          exact ⟨y1, hy1, by simpa using hk⟩

theorem destructure_eq {ε : Type} (payload : Json) (hnull : payload ≠ .null) :
    destructure (ε := ε) payload
      = .ok (field payload "errorMessage", field payload "rows", field payload "columns") := by
  cases payload <;> first | exact absurd rfl hnull | rfl

/-- Inversion of a resolved callback. -/
theorem settle_ok {ε : Type} (engine : Json → Json → Option JsValue) (payload : Json) (g : Grid)
    (h : settle (ε := ε) engine payload = .ok g) :
    truthy (field payload "errorMessage") = false
      ∧ g.columnnames = field payload "columns"
      ∧ ∃ rs, field payload "rows" = .json (.arr rs)
          ∧ arrayMap (mapColumns (ε := ε) engine (field payload "columns")) rs = .ok g.rows := by
  by_cases hnull : payload = .null
  · subst hnull; simp [settle, destructure] at h
  · rw [settle, destructure_eq payload hnull] at h
    simp only at h
    cases ht : truthy (field payload "errorMessage") with
    | true => rw [ht] at h; simp at h
    | false =>
      rw [ht] at h
      simp only [Bool.false_eq_true, if_false] at h
      cases hm : mapRows (ε := ε) engine (field payload "rows") (field payload "columns") with
      | error e => rw [hm] at h; cases h
      | ok rows =>
        rw [hm] at h
        simp only [Except.ok.injEq] at h
        subst h
        refine ⟨rfl, rfl, ?_⟩
        unfold mapRows at hm
        split at hm
        · rename_i rs heq
          exact ⟨rs, heq, hm⟩
        · cases hm

theorem settle_truthy {ε : Type} (engine : Json → Json → Option JsValue) (payload : Json)
    (h : truthy (field payload "errorMessage") = true) :
    settle (ε := ε) engine payload = .error (.message (field payload "errorMessage")) := by
  by_cases hnull : payload = .null
  · subst hnull; simp [field, truthy] at h
  · rw [settle, destructure_eq payload hnull]
    simp [h]

theorem query_answers {ε : Type} (engine : Json → Json → Option JsValue) (queryStatement : String)
    (connection : Connection) (net : Net ε) (payload : Json)
    (h : Answers net queryStatement connection payload) :
    (query engine queryStatement connection net).1 = settle engine payload := by
  obtain ⟨response, hr, hj⟩ := h
  simp [query, fetch, hr, hj]

theorem answers_netOf (queryStatement : String) (connection : Connection) (payload : Json) :
    Answers (netOf payload) queryStatement connection payload :=
  ⟨{ json := .ok payload }, rfl, rfl⟩

theorem arrayMap_map_total {ε α β γ : Type} (f : α → Except ε β) (k : γ → α) (g : γ → β) :
    ∀ (xs : List γ), (∀ x ∈ xs, f (k x) = .ok (g x)) →
      arrayMap f (xs.map k) = .ok (xs.map g)
  | [], _ => rfl
  | x :: xs, h => by
    have hx : f (k x) = .ok (g x) := h x (List.mem_cons_self x xs)
    have hxs : arrayMap f (xs.map k) = .ok (xs.map g) :=
      arrayMap_map_total f k g xs (fun z hz => h z (List.mem_cons_of_mem x hz))
    simp [arrayMap, hx, hxs]

theorem mapColumns_records {ε : Type} (engine : Json → Json → Option JsValue) (names : List String)
    (fields : List (String × Json)) :
    mapColumns (ε := ε) engine (.json (.arr (names.map .str))) (.obj fields)
      = .ok (names.map (readRecord fields)) := by
  simp only [mapColumns]
  exact arrayMap_map_total _ Json.str (readRecord fields) names (fun _ _ => rfl)

/-- Every cell of a resolved grid is the read `row[c]` of its raw row under its
column. -/
theorem settle_cell {ε : Type} (engine : Json → Json → Option JsValue) (payload : Json) (g : Grid)
    (h : settle (ε := ε) engine payload = .ok g) (rs cs : List Json)
    (hrows : field payload "rows" = .json (.arr rs))
    (hcols : field payload "columns" = .json (.arr cs))
    (i j : Nat) (row c : Json) (hi : rs[i]? = some row) (hj : cs[j]? = some c) :
    ∃ v, getV (ε := ε) engine row c = .ok v ∧ g.cell i j = some v := by
  obtain ⟨_, _, rs1, hrs1, hmap⟩ := settle_ok engine payload g h
  rw [hrows] at hrs1
  simp only [JsValue.json.injEq, Json.arr.injEq] at hrs1
  subst hrs1
  obtain ⟨cells, hcells, hgi⟩ := arrayMap_getElem _ rs g.rows hmap i row hi
  rw [hcols] at hcells
  simp only [mapColumns] at hcells
  obtain ⟨v, hv, hvj⟩ := arrayMap_getElem _ cs cells hcells j c hj
  exact ⟨v, hv, by simp [Grid.cell, hgi, hvj]⟩

theorem arrayMap_error {ε α β : Type} (f : α → Except ε β) :
    ∀ (xs : List α) (e : ε), arrayMap f xs = .error e → ∃ x ∈ xs, f x = .error e
  | [], e, h => by simp [arrayMap] at h
  | x :: xs, e, h => by
    simp only [arrayMap] at h
    cases hx : f x with
    | error e1 =>
      rw [hx] at h
      simp only [Except.error.injEq] at h
      subst h
      exact ⟨x, List.mem_cons_self x xs, hx⟩
    | ok y =>
      rw [hx] at h
      cases hxs : arrayMap f xs with
      | error e1 =>
        rw [hxs] at h
        simp only [Except.error.injEq] at h
        subst h
        obtain ⟨z, hz, hfz⟩ := arrayMap_error f xs e1 hxs
        exact ⟨z, List.mem_cons_of_mem x hz, hfz⟩
      | ok zs => rw [hxs] at h; cases h

theorem getV_error {ε : Type} (engine : Json → Json → Option JsValue) (row c : Json) (e : Failure ε)
    (h : getV engine row c = .error e) : e = .typeError := by
  unfold getV at h
  split at h
  · simp only [Except.error.injEq] at h
    exact h.symm
  · cases h
  · split at h
    · cases h
    · simp only [Except.error.injEq] at h
      exact h.symm

theorem mapColumns_error {ε : Type} (engine : Json → Json → Option JsValue) (columns : JsValue)
    (row : Json) (e : Failure ε) (h : mapColumns engine columns row = .error e) :
    e = .typeError := by
  unfold mapColumns at h
  split at h
  · obtain ⟨c, _, hc⟩ := arrayMap_error _ _ e h
    exact getV_error engine row c e hc
  · simp only [Except.error.injEq] at h
    exact h.symm

theorem mapRows_error {ε : Type} (engine : Json → Json → Option JsValue) (rows columns : JsValue)
    (e : Failure ε) (h : mapRows engine rows columns = .error e) : e = .typeError := by
  unfold mapRows at h
  split at h
  · obtain ⟨row, _, hrow⟩ := arrayMap_error _ _ e h
    exact mapColumns_error engine columns row e hrow
  · simp only [Except.error.injEq] at h
    exact h.symm

/-- Without a truthy `errorMessage` the callback resolves or throws a
`TypeError`. -/
theorem settle_falsy {ε : Type} (engine : Json → Json → Option JsValue) (payload : Json)
    (e : Failure ε) (hfalsy : truthy (field payload "errorMessage") = false)
    (h : settle engine payload = .error e) : e = .typeError := by
  by_cases hnull : payload = .null
  · subst hnull
    simp only [settle, destructure, Except.error.injEq] at h
    exact h.symm
  · rw [settle, destructure_eq payload hnull] at h
    simp only [hfalsy, Bool.false_eq_true, if_false] at h
    cases hm : mapRows (ε := ε) engine (field payload "rows") (field payload "columns") with
    | error e1 =>
      rw [hm] at h
      simp only [Except.error.injEq] at h
      subst h
      exact mapRows_error engine _ _ e1 hm
    | ok rows => rw [hm] at h; cases h

theorem settle_falsy_eq {ε : Type} (engine : Json → Json → Option JsValue) (payload : Json)
    (hfalsy : truthy (field payload "errorMessage") = false) :
    settle (ε := ε) engine payload
      = match mapRows engine (field payload "rows") (field payload "columns") with
        | .error e => .error e
        | .ok rs => .ok { rows := rs, columnnames := field payload "columns" } := by
  by_cases hnull : payload = .null
  · subst hnull
    rfl
  · rw [settle, destructure_eq payload hnull]
    simp only [hfalsy, Bool.false_eq_true, if_false]

/-! ## The claims on `ApacheDrill.query` -/

/-- C1: for a payload without an error message whose `rows` is a sequence of
records and whose `columns` is a sequence of strings, `query` resolves with a
grid whose `columnnames` has the length of `columns`, and every row of the
grid has exactly that length, whatever fields the raw rows carry. -/
theorem query_rows_have_columnnames_length {ε : Type} (engine : Json → Json → Option JsValue)
    (queryStatement : String) (connection : Connection) (net : Net ε) (payload : Json)
    (records : List (List (String × Json))) (names : List String)
    (hanswer : Answers net queryStatement connection payload)
    (herror : truthy (field payload "errorMessage") = false)
    (hrows : field payload "rows" = .json (.arr (records.map .obj)))
    (hcolumns : field payload "columns" = .json (.arr (names.map .str))) :
    ∃ g, (query engine queryStatement connection net).1 = .ok g
      ∧ g.rows.length = records.length
      ∧ ∀ row ∈ g.rows, g.columnnames.arrayLength = some row.length := by
  rw [query_answers engine queryStatement connection net payload hanswer]
  have hnull : payload ≠ .null := by
    intro hp
    subst hp
    simp [field] at hrows
  have hmap : arrayMap (mapColumns (ε := ε) engine (.json (.arr (names.map .str))))
      (records.map Json.obj) = .ok (records.map (fun fields => names.map (readRecord fields))) :=
    arrayMap_map_total _ Json.obj _ records
      (fun fields _ => mapColumns_records engine names fields)
  refine ⟨{ rows := records.map (fun fields => names.map (readRecord fields))
            columnnames := field payload "columns" }, ?_, ?_, ?_⟩
  · rw [settle, destructure_eq payload hnull]
    simp only [herror, Bool.false_eq_true, if_false, hrows, hcolumns, mapRows, hmap]
  · simp
  · intro row hrow
    simp only [List.mem_map] at hrow
    obtain ⟨fields, _, rfl⟩ := hrow
    simp [hcolumns, JsValue.arrayLength]

/-- C2: the grid `query` resolves with has as many rows as the payload's `rows`,
and the cell `rows[i][j]` is the value the `i`-th raw row holds under the field
named `columns[j]`. -/
theorem query_cell_is_field_of_raw_row {ε : Type} (engine : Json → Json → Option JsValue)
    (queryStatement : String) (connection : Connection) (net : Net ε) (payload : Json)
    (g : Grid)
    (hanswer : Answers net queryStatement connection payload)
    (hresolved : (query engine queryStatement connection net).1 = .ok g) :
    ∃ rs, field payload "rows" = .json (.arr rs)
      ∧ g.rows.length = rs.length
      ∧ ∀ (cs : List Json) (i j : Nat) (fields : List (String × Json)) (name : String)
          (v : Json),
          field payload "columns" = .json (.arr cs) →
          rs[i]? = some (.obj fields) → cs[j]? = some (.str name) →
          fields.lookup name = some v →
          g.cell i j = some (.json v) := by
  rw [query_answers engine queryStatement connection net payload hanswer] at hresolved
  obtain ⟨_, _, rs, hrs, hmap⟩ := settle_ok engine payload g hresolved
  refine ⟨rs, hrs, arrayMap_length _ rs g.rows hmap, ?_⟩
  intro cs i j fields name v hcs hi hj hv
  obtain ⟨cell, hcell, hg⟩ :=
    settle_cell engine payload g hresolved rs cs hrs hcs i j _ _ hi hj
  simp only [getV, readRecord, hv, Except.ok.injEq] at hcell
  rw [hg, ← hcell]

/-- C3: the `columnnames` of the grid `query` resolves with is the payload's
`columns`, unchanged. -/
theorem query_columnnames_is_columns {ε : Type} (engine : Json → Json → Option JsValue)
    (queryStatement : String) (connection : Connection) (net : Net ε) (payload : Json)
    (g : Grid)
    (hanswer : Answers net queryStatement connection payload)
    (hresolved : (query engine queryStatement connection net).1 = .ok g) :
    g.columnnames = field payload "columns" := by
  rw [query_answers engine queryStatement connection net payload hanswer] at hresolved
  exact (settle_ok engine payload g hresolved).2.1

theorem query_rows_have_columnnames_length_witness :
    truthy (field samplePayload "errorMessage") = false
      ∧ ∃ g, (query plainEngine "SELECT 1" sampleConnection (netOf samplePayload)).1 = .ok g
          ∧ g.rows.length = 2
          ∧ ∀ row ∈ g.rows, g.columnnames.arrayLength = some row.length :=
  ⟨by decide,
   query_rows_have_columnnames_length plainEngine "SELECT 1" sampleConnection
    (netOf samplePayload) samplePayload
    [[("a", .num 1), ("b", .str "x")], [("z", .bool true), ("a", .num 2)]] ["a", "b"]
    (answers_netOf _ _ _) (by decide) rfl rfl⟩

theorem query_cell_is_field_of_raw_row_witness :
    (query plainEngine "SELECT 1" sampleConnection (netOf samplePayload)).1
        = .ok { rows := [[.json (.num 1), .json (.str "x")], [.json (.num 2), .undefined]]
                columnnames := .json (.arr [.str "a", .str "b"]) }
      ∧ ∃ rs, field samplePayload "rows" = .json (.arr rs)
          ∧ 2 = rs.length
          ∧ ∀ (cs : List Json) (i j : Nat) (fields : List (String × Json)) (name : String)
              (v : Json),
              field samplePayload "columns" = .json (.arr cs) →
              rs[i]? = some (.obj fields) → cs[j]? = some (.str name) →
              fields.lookup name = some v →
              Grid.cell { rows := [[.json (.num 1), .json (.str "x")],
                                    [.json (.num 2), .undefined]]
                          columnnames := .json (.arr [.str "a", .str "b"]) } i j
                = some (.json v) :=
  ⟨rfl,
   query_cell_is_field_of_raw_row plainEngine "SELECT 1" sampleConnection
    (netOf samplePayload) samplePayload _ (answers_netOf _ _ _) rfl⟩

theorem query_columnnames_is_columns_witness :
    (query plainEngine "SELECT 1" sampleConnection (netOf samplePayload)).1
        = .ok { rows := [[.json (.num 1), .json (.str "x")], [.json (.num 2), .undefined]]
                columnnames := .json (.arr [.str "a", .str "b"]) }
      ∧ JsValue.json (.arr [.str "a", .str "b"]) = field samplePayload "columns" :=
  ⟨rfl,
   query_columnnames_is_columns plainEngine "SELECT 1" sampleConnection
    (netOf samplePayload) samplePayload
    { rows := [[.json (.num 1), .json (.str "x")], [.json (.num 2), .undefined]]
      columnnames := .json (.arr [.str "a", .str "b"]) }
    (answers_netOf _ _ _) rfl⟩

/-- C4, as the claim states it, fails: a payload whose `errorMessage` is present
and is the empty string is reshaped and resolved as a grid. -/
theorem present_empty_errorMessage_resolves :
    field emptyMessagePayload "errorMessage" = .json (.str "")
      ∧ (query plainEngine "SELECT 1" sampleConnection (netOf emptyMessagePayload)).1
          = .ok { rows := [[.json (.num 1)]], columnnames := .json (.arr [.str "a"]) } :=
  ⟨rfl, rfl⟩

/-- C4, amended: for every payload whose `errorMessage` is truthy, `query`
rejects with a message record and resolves with no grid, whatever `rows` and
`columns` are.  A payload whose `errorMessage` is falsy, present or not, is
reshaped as a payload without an error: `query` rejects with no message
record, and settles with the grid built from `rows` and `columns` or with the
`TypeError` thrown while building it. -/
theorem query_truthy_errorMessage_rejects {ε : Type} (engine : Json → Json → Option JsValue)
    (queryStatement : String) (connection : Connection) (net : Net ε) (payload : Json)
    (hanswer : Answers net queryStatement connection payload) :
    (truthy (field payload "errorMessage") = true →
        (∃ m, (query engine queryStatement connection net).1 = .error (.message m))
          ∧ ∀ g, (query engine queryStatement connection net).1 ≠ .ok g)
      ∧ (truthy (field payload "errorMessage") = false →
          (∀ m, (query engine queryStatement connection net).1 ≠ .error (.message m))
            ∧ (query engine queryStatement connection net).1
                = match mapRows engine (field payload "rows") (field payload "columns") with
                  | .error e => .error e
                  | .ok rs => .ok { rows := rs, columnnames := field payload "columns" }) := by
  rw [query_answers engine queryStatement connection net payload hanswer]
  refine ⟨?_, ?_⟩
  · intro herror
    rw [settle_truthy engine payload herror]
    exact ⟨⟨_, rfl⟩, fun g hg => by cases hg⟩
  · intro herror
    refine ⟨?_, settle_falsy_eq engine payload herror⟩
    intro m hm
    have := settle_falsy engine payload _ herror hm
    cases this

theorem query_truthy_errorMessage_rejects_witness :
    (truthy (field failedPayload "errorMessage") = true
        ∧ (∃ m, (query plainEngine "SELECT * FORM t" sampleConnection (netOf failedPayload)).1
              = .error (.message m))
        ∧ ∀ g, (query plainEngine "SELECT * FORM t" sampleConnection (netOf failedPayload)).1
              ≠ .ok g)
      ∧ (field emptyMessagePayload "errorMessage" = .json (.str "")
        ∧ (∀ m, (query plainEngine "SELECT 1" sampleConnection (netOf emptyMessagePayload)).1
              ≠ .error (.message m))
        ∧ (query plainEngine "SELECT 1" sampleConnection (netOf emptyMessagePayload)).1
            = .ok { rows := [[.json (.num 1)]], columnnames := .json (.arr [.str "a"]) }) :=
  ⟨⟨by decide,
    (query_truthy_errorMessage_rejects plainEngine "SELECT * FORM t" sampleConnection
      (netOf failedPayload) failedPayload (answers_netOf _ _ _)).1 (by decide)⟩,
   ⟨rfl,
    ((query_truthy_errorMessage_rejects plainEngine "SELECT 1" sampleConnection
      (netOf emptyMessagePayload) emptyMessagePayload (answers_netOf _ _ _)).2 (by decide)).1,
    ((query_truthy_errorMessage_rejects plainEngine "SELECT 1" sampleConnection
      (netOf emptyMessagePayload) emptyMessagePayload (answers_netOf _ _ _)).2 (by decide)).2⟩⟩

/-- C5: when the payload carries a (truthy) error message, `query` rejects with
exactly the record whose `message` is the payload's `errorMessage`, unchanged;
and every message record `query` rejects with carries that value. -/
theorem query_rejection_message_is_errorMessage {ε : Type} (engine : Json → Json → Option JsValue)
    (queryStatement : String) (connection : Connection) (net : Net ε) (payload : Json)
    (hanswer : Answers net queryStatement connection payload) :
    (truthy (field payload "errorMessage") = true →
        (query engine queryStatement connection net).1
          = .error (.message (field payload "errorMessage")))
      ∧ ∀ m, (query engine queryStatement connection net).1 = .error (.message m) →
          m = field payload "errorMessage" := by
  rw [query_answers engine queryStatement connection net payload hanswer]
  refine ⟨settle_truthy engine payload, ?_⟩
  intro m hm
  cases ht : truthy (field payload "errorMessage") with
  | true =>
    rw [settle_truthy engine payload ht] at hm
    simp only [Except.error.injEq, Failure.message.injEq] at hm
    exact hm.symm
  | false =>
    have := settle_falsy engine payload _ ht hm
    cases this

theorem query_rejection_message_is_errorMessage_witness :
    (query plainEngine "SELECT * FORM t" sampleConnection (netOf failedPayload)).1
        = .error (.message (.json (.str "PARSE ERROR: Encountered FORM at line 1, column 10")))
      ∧ ∀ m, (query plainEngine "SELECT * FORM t" sampleConnection (netOf failedPayload)).1
            = .error (.message m) →
          m = field failedPayload "errorMessage" :=
  ⟨(query_rejection_message_is_errorMessage plainEngine "SELECT * FORM t" sampleConnection
      (netOf failedPayload) failedPayload (answers_netOf _ _ _)).1 (by decide),
   (query_rejection_message_is_errorMessage plainEngine "SELECT * FORM t" sampleConnection
      (netOf failedPayload) failedPayload (answers_netOf _ _ _)).2⟩

/-- C6, as the claim states it, fails: the second raw row of the sample payload
has no field `b`, and the cell of the grid at that place is `undefined`, not
the null cell. -/
theorem absent_field_cell_is_undefined :
    List.lookup "b" [("z", Json.bool true), ("a", .num 2)] = none
      ∧ ∃ g, (query plainEngine "SELECT 1" sampleConnection (netOf samplePayload)).1 = .ok g
          ∧ g.cell 1 1 = some .undefined
          ∧ g.cell 1 1 ≠ some (.json .null) :=
  ⟨rfl, _, rfl, rfl, fun h => by cases h⟩

/-- C6, amended: where the `i`-th raw row has no field named `columns[j]`, the
cell `rows[i][j]` of the resolved grid is there (the position is filled) and
holds `undefined`, or the member of `Object.prototype` of that name when there
is one; it never holds null. -/
theorem query_absent_field_cell {ε : Type} (engine : Json → Json → Option JsValue)
    (queryStatement : String) (connection : Connection) (net : Net ε) (payload : Json)
    (g : Grid) (rs cs : List Json) (i j : Nat) (fields : List (String × Json))
    (name : String)
    (hanswer : Answers net queryStatement connection payload)
    (hresolved : (query engine queryStatement connection net).1 = .ok g)
    (hrows : field payload "rows" = .json (.arr rs))
    (hcolumns : field payload "columns" = .json (.arr cs))
    (hi : rs[i]? = some (.obj fields)) (hj : cs[j]? = some (.str name))
    (habsent : fields.lookup name = none) :
    g.cell i j = some (if name ∈ objectPrototypeNames then .native name else .undefined)
      ∧ g.cell i j ≠ some (.json .null) := by
  rw [query_answers engine queryStatement connection net payload hanswer] at hresolved
  obtain ⟨cell, hcell, hg⟩ :=
    settle_cell engine payload g hresolved rs cs hrows hcolumns i j _ _ hi hj
  simp only [getV, readRecord, habsent, Except.ok.injEq] at hcell
  rw [hg, ← hcell]
  refine ⟨rfl, ?_⟩
  split <;> simp

theorem query_absent_field_cell_witness :
    List.lookup "b" [("z", Json.bool true), ("a", .num 2)] = none
      ∧ Grid.cell { rows := [[.json (.num 1), .json (.str "x")], [.json (.num 2), .undefined]]
                    columnnames := .json (.arr [.str "a", .str "b"]) } 1 1
          = some (if "b" ∈ objectPrototypeNames then .native "b" else .undefined)
      ∧ Grid.cell { rows := [[.json (.num 1), .json (.str "x")], [.json (.num 2), .undefined]]
                    columnnames := .json (.arr [.str "a", .str "b"]) } 1 1
          ≠ some (.json .null) :=
  ⟨rfl,
   query_absent_field_cell plainEngine "SELECT 1" sampleConnection (netOf samplePayload)
    samplePayload _ _ _ 1 1 [("z", .bool true), ("a", .num 2)] "b"
    (answers_netOf _ _ _) rfl rfl rfl rfl rfl rfl⟩

/-- C7, as the claim states it, fails: a payload with no error message, an empty
`rows` and no `columns` is resolved, as a grid whose `columnnames` is
`undefined`. -/
theorem empty_rows_without_columns_resolves :
    field noColumnsPayload "columns" = .undefined
      ∧ (query plainEngine "SELECT 1" sampleConnection (netOf noColumnsPayload)).1
          = .ok { rows := [], columnnames := .undefined } :=
  ⟨rfl, rfl⟩

/-- C7, amended: for a payload with no truthy error message, a resolved grid
has one row per entry of the payload's `rows` and the payload's `columns` as
`columnnames`, which is a sequence as long as every row once there is a row;
`query` rejects with a `TypeError` when `rows` is no sequence, and when `rows`
has an entry and `columns` is no sequence; and when `rows` is the empty
sequence `query` resolves, with no rows and with whatever `columns` is as
`columnnames`, also when `columns` is absent or no sequence of strings. -/
theorem query_resolves_or_throws {ε : Type} (engine : Json → Json → Option JsValue)
    (queryStatement : String) (connection : Connection) (net : Net ε) (payload : Json)
    (hanswer : Answers net queryStatement connection payload)
    (herror : truthy (field payload "errorMessage") = false) :
    (∀ g, (query engine queryStatement connection net).1 = .ok g →
        g.columnnames = field payload "columns"
          ∧ ∃ rs, field payload "rows" = .json (.arr rs) ∧ g.rows.length = rs.length
              ∧ (rs ≠ [] → ∃ cs, field payload "columns" = .json (.arr cs)
                    ∧ ∀ row ∈ g.rows, row.length = cs.length))
      ∧ ((∀ rs, field payload "rows" ≠ .json (.arr rs)) →
          (query engine queryStatement connection net).1 = .error .typeError)
      ∧ (∀ r rs, field payload "rows" = .json (.arr (r :: rs)) →
          (∀ cs, field payload "columns" ≠ .json (.arr cs)) →
          (query engine queryStatement connection net).1 = .error .typeError)
      ∧ (field payload "rows" = .json (.arr []) →
          (query engine queryStatement connection net).1
            = .ok { rows := [], columnnames := field payload "columns" }) := by
  rw [query_answers engine queryStatement connection net payload hanswer]
  refine ⟨?_, ?_, ?_, ?_⟩
  · intro g hg
    obtain ⟨_, hcn, rs, hrs, hmap⟩ := settle_ok engine payload g hg
    refine ⟨hcn, rs, hrs, arrayMap_length _ rs g.rows hmap, ?_⟩
    intro hne
    cases rs with
    | nil => exact absurd rfl hne
    | cons r rest =>
      obtain ⟨cells, hcells, _⟩ := arrayMap_getElem _ _ g.rows hmap 0 r (by simp)
      cases hc : field payload "columns" with
      | undefined => rw [hc] at hcells; cases hcells
      | native n => rw [hc] at hcells; cases hcells
      | json c =>
        cases c with
        | arr cs =>
          refine ⟨cs, rfl, ?_⟩
          intro row hrow
          obtain ⟨k, hk⟩ := List.getElem?_of_mem hrow
          have hklt : k < (r :: rest).length := by
            rw [← arrayMap_length _ _ g.rows hmap]
            exact (List.getElem?_eq_some_iff.mp hk).1
          obtain ⟨row1, hrow1, hgk⟩ :=
            arrayMap_getElem _ _ g.rows hmap k _ (List.getElem?_eq_getElem hklt)
          rw [hk] at hgk
          simp only [Option.some.injEq] at hgk
          subst hgk
          rw [hc] at hrow1
          exact arrayMap_length _ cs row hrow1
        | null => rw [hc] at hcells; cases hcells
        | bool b => rw [hc] at hcells; cases hcells
        | num q => rw [hc] at hcells; cases hcells
        | str t => rw [hc] at hcells; cases hcells
        | obj fs => rw [hc] at hcells; cases hcells
  · intro hrows
    have hm : mapRows (ε := ε) engine (field payload "rows") (field payload "columns")
        = .error .typeError := by
      unfold mapRows
      split
      · rename_i rs heq
        exact absurd heq (hrows rs)
      · rfl
    rw [settle_falsy_eq engine payload herror, hm]
  · intro r rs hrows hcolumns
    rw [settle_falsy_eq engine payload herror, hrows]
    have hcol : mapColumns (ε := ε) engine (field payload "columns") r = .error .typeError := by
      unfold mapColumns
      split
      · rename_i cs heq
        exact absurd heq (hcolumns cs)
      · rfl
    simp [mapRows, arrayMap, hcol]
  · intro hrows
    rw [settle_falsy_eq engine payload herror, hrows]
    rfl

theorem query_resolves_or_throws_witness :
    (field noColumnsPayload "rows" = .json (.arr [])
        ∧ field noColumnsPayload "columns" = .undefined
        ∧ (query plainEngine "SELECT 1" sampleConnection (netOf noColumnsPayload)).1
            = .ok { rows := [], columnnames := .undefined })
      ∧ (field noRowsPayload "rows" = .undefined
        ∧ (query plainEngine "SELECT 1" sampleConnection (netOf noRowsPayload)).1
            = .error .typeError)
      ∧ (field headlessPayload "columns" = .undefined
        ∧ (query plainEngine "SELECT 1" sampleConnection (netOf headlessPayload)).1
            = .error .typeError)
      ∧ ∃ cs, field samplePayload "columns" = .json (.arr cs)
          ∧ ∀ row ∈ [[JsValue.json (.num 1), .json (.str "x")], [.json (.num 2), .undefined]],
              row.length = cs.length := by
  refine ⟨⟨rfl, rfl, ?_⟩, ⟨rfl, ?_⟩, ⟨rfl, ?_⟩, ?_⟩
  · exact (query_resolves_or_throws plainEngine "SELECT 1" sampleConnection
      (netOf noColumnsPayload) noColumnsPayload (answers_netOf _ _ _) (by decide)).2.2.2 rfl
  · apply (query_resolves_or_throws plainEngine "SELECT 1" sampleConnection
      (netOf noRowsPayload) noRowsPayload (answers_netOf _ _ _) (by decide)).2.1
    intro rs h
    have hrows : field noRowsPayload "rows" = .undefined := rfl
    rw [hrows] at h
    cases h
  · apply (query_resolves_or_throws plainEngine "SELECT 1" sampleConnection
      (netOf headlessPayload) headlessPayload (answers_netOf _ _ _) (by decide)).2.2.1
      (.obj [("a", .num 1)]) [] rfl
    intro cs h
    have hcolumns : field headlessPayload "columns" = .undefined := rfl
    rw [hcolumns] at h
    cases h
  · obtain ⟨_, rs, hrs, _, hcs⟩ :=
      (query_resolves_or_throws plainEngine "SELECT 1" sampleConnection
        (netOf samplePayload) samplePayload (answers_netOf _ _ _) (by decide)).1
        { rows := [[.json (.num 1), .json (.str "x")], [.json (.num 2), .undefined]]
          columnnames := .json (.arr [.str "a", .str "b"]) } rfl
    apply hcs
    intro hnil
    rw [hnil] at hrs
    have hrows : field samplePayload "rows"
        = .json (.arr [.obj [("a", .num 1), ("b", .str "x")],
                       .obj [("z", .bool true), ("a", .num 2)]]) := rfl
    rw [hrows] at hrs
    simp at hrs

/-- C8: `query` sends exactly one request, the one it built, and when that
request fails with `e`, or the body of its response fails to decode with `e`,
`query` rejects with `e` itself. -/
theorem query_one_request_error_as_is {ε : Type} (engine : Json → Json → Option JsValue)
    (queryStatement : String) (connection : Connection) (net : Net ε) :
    (query engine queryStatement connection net).2.sent
        = net.sent ++ [request queryStatement connection]
      ∧ (∀ e, net.reply net.sent.length (request queryStatement connection) = .error e →
          (query engine queryStatement connection net).1 = .error (.raised e))
      ∧ (∀ response e,
          net.reply net.sent.length (request queryStatement connection) = .ok response →
          response.json = .error e →
          (query engine queryStatement connection net).1 = .error (.raised e)) := by
  refine ⟨?_, ?_, ?_⟩
  · unfold query fetch
    cases hr : net.reply net.sent.length (request queryStatement connection) with
    | error e => rfl
    | ok response =>
      cases hj : response.json with
      | error e => simp [hj]
      | ok json => simp [hj]
  · intro e he
    simp [query, fetch, he]
  · intro response e hr hj
    simp [query, fetch, hr, hj]

theorem query_one_request_error_as_is_witness :
    (query plainEngine "SELECT 1" sampleConnection (downNet "ECONNREFUSED")).2.sent
        = [request "SELECT 1" sampleConnection]
      ∧ (query plainEngine "SELECT 1" sampleConnection (downNet "ECONNREFUSED")).1
          = .error (.raised "ECONNREFUSED") :=
  ⟨(query_one_request_error_as_is plainEngine "SELECT 1" sampleConnection
      (downNet "ECONNREFUSED")).1,
   (query_one_request_error_as_is plainEngine "SELECT 1" sampleConnection
      (downNet "ECONNREFUSED")).2.1 "ECONNREFUSED" rfl⟩

/-- C9, as the claim states it, fails: a header that names a column twice is
passed through, and the `columnnames` of the resolved grid has the name twice. -/
theorem repeated_column_is_kept :
    (query plainEngine "SELECT a, a FROM t" sampleConnection (netOf repeatedColumnPayload)).1
        = .ok { rows := [[.json (.num 1), .json (.num 1)]]
                columnnames := .json (.arr [.str "a", .str "a"]) }
      ∧ ¬ UniqueNames (.json (.arr [.str "a", .str "a"])) := by
  refine ⟨rfl, ?_⟩
  rintro ⟨items, hitems, hnodup⟩
  simp only [JsValue.json.injEq, Json.arr.injEq] at hitems
  subst hitems
  simp at hnodup

/-- C9, amended: the `columnnames` of the resolved grid is free of duplicates
exactly when the payload's `columns` is: the names are passed through, not
made unique. -/
theorem query_columnnames_unique_iff {ε : Type} (engine : Json → Json → Option JsValue)
    (queryStatement : String) (connection : Connection) (net : Net ε) (payload : Json)
    (g : Grid)
    (hanswer : Answers net queryStatement connection payload)
    (hresolved : (query engine queryStatement connection net).1 = .ok g) :
    UniqueNames g.columnnames ↔ UniqueNames (field payload "columns") := by
  rw [query_answers engine queryStatement connection net payload hanswer] at hresolved
  rw [(settle_ok engine payload g hresolved).2.1]

theorem query_columnnames_unique_iff_witness :
    UniqueNames (.json (.arr [.str "a", .str "b"]))
      ↔ UniqueNames (field samplePayload "columns") :=
  query_columnnames_unique_iff plainEngine "SELECT 1" sampleConnection (netOf samplePayload)
    samplePayload
    { rows := [[.json (.num 1), .json (.str "x")], [.json (.num 2), .undefined]]
      columnnames := .json (.arr [.str "a", .str "b"]) }
    (answers_netOf _ _ _) rfl

end ApacheDrill

namespace Elasticsearch

/-! ## The scroll over an index -/

/-- Against an index, the scroll pages end, and they end either with the
requested number of hits or with the whole result set. -/
theorem scrollPages_index {Doc : Type} (docs : List Doc) (N w : Nat) (hw : 0 < w) :
    ∀ (n p : Nat) (ex : Bool),
      (N - (docs.take p).length) + (if ex then 0 else 1) = n →
      (ex = true → docs.length ≤ p) →
      ∃ q, scrollPages (index docs)
          { cursorToken := some { position := p, pageSize := w }
            pageSize := w
            totalRetrieved := (docs.take p).length
            targetSize := N
            exhausted := ex }
          (docs.take p) = .ok (docs.take q)
        ∧ (N ≤ (docs.take q).length ∨ docs.length ≤ q) := by
  intro n
  induction n using Nat.strong_induction_on with
  | _ n ih =>
    intro p ex hn hex
    rw [scrollPages]
    by_cases hc : (docs.take p).length < N ∧ ex = false
    · obtain ⟨hlt, hfalse⟩ := hc
      subst hfalse
      simp only [hlt, and_self, dite_true, index]
      have hacc : docs.take p ++ (docs.drop p).take w = docs.take (p + w) :=
        (List.take_add docs p w).symm
      have hlen : (docs.take p).length + ((docs.drop p).take w).length
          = (docs.take (p + w)).length := by
        rw [← hacc, List.length_append]
      rw [hacc, hlen]
      apply ih _ _ (p + w) ((docs.drop p).take w).isEmpty rfl
      · intro hempty
        have h0 : ((docs.drop p).take w).length = 0 := by
          rw [List.isEmpty_iff] at hempty
          rw [hempty]; rfl
        simp only [List.length_take, List.length_drop] at h0
        omega
      · rw [← hn]
        simp only [Bool.false_eq_true, if_false]
        cases hd : ((docs.drop p).take w).isEmpty with
        | true => simp only [if_true]; omega
        | false =>
          simp only [Bool.false_eq_true, if_false]
          have hpos : 0 < ((docs.drop p).take w).length := by
            cases hl : (docs.drop p).take w with
            | nil => rw [hl] at hd; simp at hd
            | cons d ds => simp
          rw [← hlen]
          omega
    · simp only [hc, dite_false]
      refine ⟨p, rfl, ?_⟩
      by_cases hlt : (docs.take p).length < N
      · right
        apply hex
        cases ex with
        | true => rfl
        | false => exact absurd ⟨hlt, rfl⟩ hc
      · left
        omega

/-- The scroll coordinator against an index returns `min N T` hits once `N`
is above the cap. -/
theorem scroll_index_length {Doc : Type} (docs : List Doc) (N : Nat) (hN : cap < N) :
    ∃ hits, scroll (index docs) N = .ok hits ∧ hits.length = min N docs.length := by
  have hmin : min N cap = cap := Nat.min_eq_right (Nat.le_of_lt hN)
  have hcap : 0 < cap := by decide
  obtain ⟨q, hq, hdone⟩ := scrollPages_index docs N cap hcap _ cap (docs.take cap).isEmpty rfl
    (by
      intro hempty
      rw [List.isEmpty_iff] at hempty
      have h0 : (docs.take cap).length = 0 := by rw [hempty]; rfl
      simp only [List.length_take] at h0
      omega)
  refine ⟨(docs.take q).take (min N docs.length), ?_, ?_⟩
  · unfold scroll
    rw [hmin]
    simp only [index, lt_self_iff_false, if_false]
    simp only [index] at hq
    rw [hq]
  · simp only [List.length_take] at hdone ⊢
    omega

/-- C10: a search-index query that asks for a size `K` above the cap, against
an index holding `T` matching documents, returns a grid (not an error) with
exactly `min K T` rows. -/
theorem query_above_cap_row_count {Cell : Type} (docs : List (List (String × Cell)))
    (K : Nat) (hK : cap < K) :
    ∃ g, query (index docs) K = .ok g ∧ g.rows.length = min K docs.length := by
  obtain ⟨hits, hscroll, hlen⟩ := scroll_index_length docs K hK
  refine ⟨assemble hits, ?_, ?_⟩
  · simp [query, hK, hscroll]
  · simp [assemble, hlen]

theorem query_above_cap_row_count_witness :
    cap < 10001
      ∧ (∃ g, query (index (List.replicate 10001 [("first", true)])) 10001 = .ok g
          ∧ g.rows.length = 10001)
      ∧ (∃ g, query (index (List.replicate 200000 [("first", true)])) 200001 = .ok g
          ∧ g.rows.length = 200000) := by
  refine ⟨by decide, ?_, ?_⟩
  · obtain ⟨g, hg, hrows⟩ :=
      query_above_cap_row_count (List.replicate 10001 [("first", true)]) 10001 (by decide)
    rw [List.length_replicate, Nat.min_self] at hrows
    exact ⟨g, hg, hrows⟩
  · obtain ⟨g, hg, hrows⟩ :=
      query_above_cap_row_count (List.replicate 200000 [("first", true)]) 200001 (by decide)
    rw [List.length_replicate, Nat.min_eq_right (by decide)] at hrows
    exact ⟨g, hg, hrows⟩

end Elasticsearch

namespace Datastores

open ApacheDrill (JsValue Json)

/-! ## Lemmas on `transpose` -/

theorem transpose_cons (first : List JsValue) (rest : List (List JsValue)) :
    transpose (first :: rest)
      = .ok (first.mapIdx (fun i _ => (first :: rest).map (fun x => readIndex x i))) := by
  simp [transpose]

theorem readIndex_of_getElem? (x : List JsValue) (i : Nat) (v : JsValue)
    (h : x[i]? = some v) : readIndex x i = v := by
  simp [readIndex, h]

theorem readIndex_past_end (x : List JsValue) (i : Nat) (h : x.length ≤ i) :
    readIndex x i = .undefined := by
  simp [readIndex, List.getElem?_eq_none h]

/-- The rows of a transposed matrix: row `i` reads every array of `m` at `i`. -/
theorem getElem?_transposed (first : List JsValue) (m : List (List JsValue)) (i : Nat)
    (hi : i < first.length) :
    (first.mapIdx (fun i _ => m.map (fun x => readIndex x i)))[i]?
      = some (m.map (fun x => readIndex x i)) := by
  rw [List.getElem?_mapIdx, List.getElem?_eq_getElem hi]
  rfl

/-- The entries of a transposed matrix. -/
theorem entry_transposed (first : List JsValue) (m : List (List JsValue)) (i j : Nat)
    (col : List JsValue) (hi : i < first.length) (hj : m[j]? = some col) :
    entry (first.mapIdx (fun i _ => m.map (fun x => readIndex x i))) i j
      = some (readIndex col i) := by
  simp [entry, getElem?_transposed first m i hi, List.getElem?_map, hj]

theorem length_of_mem_transposed (first : List JsValue) (m : List (List JsValue))
    (row : List JsValue)
    (h : row ∈ first.mapIdx (fun i _ => m.map (fun x => readIndex x i))) :
    row.length = m.length := by
  obtain ⟨k, hk⟩ := List.getElem?_of_mem h
  rw [List.getElem?_mapIdx] at hk
  cases hf : first[k]? with
  | none => rw [hf] at hk; cases hk
  | some v =>
    rw [hf] at hk
    simp only [Option.map_some', Option.some.injEq] at hk
    rw [← hk, List.length_map]

/-! ## The claims on `transpose` -/

/-- C11: for a non-empty column-major matrix whose columns all have the length
`r`, `transpose` returns a matrix of `r` rows, each as long as the number of
columns, with `transpose(columns)[i][j] = columns[j][i]`. -/
theorem transpose_equal_columns (columns : List (List JsValue)) (r : Nat)
    (hne : columns ≠ []) (hlen : ∀ col ∈ columns, col.length = r) :
    ∃ t, transpose columns = .ok t
      ∧ t.length = r
      ∧ (∀ row ∈ t, row.length = columns.length)
      ∧ ∀ (i j : Nat) (col : List JsValue) (v : JsValue),
          columns[j]? = some col → col[i]? = some v → entry t i j = some v := by
  cases columns with
  | nil => exact absurd rfl hne
  | cons first rest =>
    have hfirst : first.length = r := hlen first (List.mem_cons_self first rest)
    refine ⟨_, transpose_cons first rest, ?_, ?_, ?_⟩
    · rw [List.length_mapIdx, hfirst]
    · intro row hrow
      exact length_of_mem_transposed first (first :: rest) row hrow
    · intro i j col v hj hv
      have hcol : col.length = r := hlen col (List.getElem?_mem hj)
      have hi : i < first.length := by
        have := (List.getElem?_eq_some_iff.mp hv).1
        omega
      rw [entry_transposed first (first :: rest) i j col hi hj,
        readIndex_of_getElem? col i v hv]

theorem transpose_equal_columns_witness :
    ∃ t, transpose [[number 1, number 2, number 3], [number 4, number 5, number 6]] = .ok t
      ∧ t.length = 3
      ∧ (∀ row ∈ t, row.length = 2)
      ∧ ∀ (i j : Nat) (col : List JsValue) (v : JsValue),
          [[number 1, number 2, number 3], [number 4, number 5, number 6]][j]? = some col →
          col[i]? = some v → entry t i j = some v :=
  transpose_equal_columns [[number 1, number 2, number 3], [number 4, number 5, number 6]] 3
    (by simp) (by simp)

/-- C12, as the claim states it, fails: on columns of unequal length `transpose`
returns without an error; a column shorter than the first is padded with
`undefined`, and the entries of a column past the length of the first are
dropped. -/
theorem unequal_columns_padded_and_cut :
    transpose [[number 1, number 2], [number 3]]
        = .ok [[number 1, number 3], [number 2, .undefined]]
      ∧ transpose [[number 1], [number 2, number 3]] = .ok [[number 1, number 2]] :=
  ⟨rfl, rfl⟩

/-- C12, amended: on a non-empty matrix, whatever the lengths of its columns,
`transpose` returns a matrix with one row per entry of the first column, each
row as long as the number of columns; the entry at `(i, j)` is `columns[j][i]`
where column `j` has an `i`-th entry and `undefined` where it is too short, and
no row stands for the entries of a column past the length of the first. -/
theorem transpose_unequal_columns (first : List JsValue) (rest : List (List JsValue)) :
    ∃ t, transpose (first :: rest) = .ok t
      ∧ t.length = first.length
      ∧ (∀ row ∈ t, row.length = (first :: rest).length)
      ∧ (∀ (i j : Nat) (col : List JsValue), i < first.length →
          (first :: rest)[j]? = some col →
          (∀ v, col[i]? = some v → entry t i j = some v)
            ∧ (col.length ≤ i → entry t i j = some .undefined))
      ∧ ∀ (i j : Nat), first.length ≤ i → entry t i j = none := by
  refine ⟨_, transpose_cons first rest, List.length_mapIdx, ?_, ?_, ?_⟩
  · intro row hrow
    exact length_of_mem_transposed first (first :: rest) row hrow
  · intro i j col hi hj
    rw [entry_transposed first (first :: rest) i j col hi hj]
    refine ⟨?_, ?_⟩
    · intro v hv
      rw [readIndex_of_getElem? col i v hv]
    · intro hshort
      rw [readIndex_past_end col i hshort]
  · intro i j hi
    have hnone : (first.mapIdx
        (fun i _ => (first :: rest).map (fun x => readIndex x i)))[i]? = none := by
      rw [List.getElem?_mapIdx, List.getElem?_eq_none hi]
      rfl
    unfold entry
    rw [hnone]

theorem transpose_unequal_columns_witness :
    ∃ t, transpose [[number 1, number 2], [number 3]] = .ok t
      ∧ t.length = 2
      ∧ (∀ row ∈ t, row.length = 2)
      ∧ (∀ (i j : Nat) (col : List JsValue), i < 2 →
          [[number 1, number 2], [number 3]][j]? = some col →
          (∀ v, col[i]? = some v → entry t i j = some v)
            ∧ (col.length ≤ i → entry t i j = some .undefined))
      ∧ ∀ (i j : Nat), 2 ≤ i → entry t i j = none :=
  transpose_unequal_columns [number 1, number 2] [[number 3]]

/-- C13: for a row-major grid with at least one row and at least one column
whose rows all have the same length, transposing twice gives the grid back. -/
theorem transpose_transpose (m : List (List JsValue)) (c : Nat)
    (hrows : m ≠ []) (hcolumns : 0 < c) (hlen : ∀ row ∈ m, row.length = c) :
    ∃ t, transpose m = .ok t ∧ transpose t = .ok m := by
  cases m with
  | nil => exact absurd rfl hrows
  | cons first rest =>
    have hfirst : first.length = c := hlen first (List.mem_cons_self first rest)
    refine ⟨_, transpose_cons first rest, ?_⟩
    have h0 := getElem?_transposed first (first :: rest) 0 (by omega)
    unfold transpose
    rw [h0]
    simp only [Except.ok.injEq]
    apply List.ext_getElem?
    intro k
    rw [List.getElem?_mapIdx, List.getElem?_map]
    cases hk : (first :: rest)[k]? with
    | none => rfl
    | some row =>
      have hrow : row.length = c := hlen row (List.getElem?_mem hk)
      simp only [Option.map_some', Option.some.injEq]
      apply List.ext_getElem?
      intro i
      rw [List.getElem?_map]
      by_cases hi : i < first.length
      · rw [getElem?_transposed first (first :: rest) i hi]
        have hri : i < row.length := by omega
        simp only [Option.map_some', List.getElem?_eq_getElem hri, Option.some.injEq]
        rw [readIndex_of_getElem? _ k (readIndex row i) (by rw [List.getElem?_map, hk]; rfl)]
        exact readIndex_of_getElem? row i _ (List.getElem?_eq_getElem hri)
      · have hnone : (first.mapIdx
            (fun i _ => (first :: rest).map (fun x => readIndex x i)))[i]? = none := by
          rw [List.getElem?_mapIdx, List.getElem?_eq_none (by omega)]
          rfl
        rw [hnone, List.getElem?_eq_none (by omega)]
        rfl

theorem transpose_transpose_witness :
    ∃ t, transpose [[number 1, number 2, number 3], [number 4, number 5, number 6]] = .ok t
      ∧ transpose t = .ok [[number 1, number 2, number 3], [number 4, number 5, number 6]] :=
  transpose_transpose [[number 1, number 2, number 3], [number 4, number 5, number 6]] 3
    (by simp) (by decide) (by simp)

end Datastores

namespace ApacheDrill

/-! ## What the grid depends on -/

theorem arrayMap_congr {ε α β : Type} (f g : α → Except ε β) :
    ∀ (xs : List α), (∀ x ∈ xs, f x = g x) → arrayMap f xs = arrayMap g xs
  | [], _ => rfl
  | x :: xs, h => by
    simp only [arrayMap, h x (List.mem_cons_self x xs),
      arrayMap_congr f g xs (fun z hz => h z (List.mem_cons_of_mem x hz))]

theorem arrayMap_forall₂ {ε α β : Type} (f g : α → Except ε β) (xs ys : List α)
    (h : List.Forall₂ (fun a b => f a = g b) xs ys) : arrayMap f xs = arrayMap g ys := by
  induction h with
  | nil => rfl
  | cons hab _ ih => simp only [arrayMap, hab, ih]

/-- Rows that agree under an entry of `columns` read the same under it. -/
theorem getV_of_agreeOn {ε : Type} (engine : Json → Json → Option JsValue) (row1 row2 c : Json)
    (h : AgreeOn row1 row2 c) : getV (ε := ε) engine row1 c = getV engine row2 c := by
  unfold AgreeOn at h
  split at h
  · simp only [getV, readRecord, h]
  · subst h
    rfl

theorem mapColumns_of_agreeOn {ε : Type} (engine : Json → Json → Option JsValue) (columns : JsValue)
    (row1 row2 : Json)
    (h : ∀ cs, columns = .json (.arr cs) → ∀ c ∈ cs, AgreeOn row1 row2 c) :
    mapColumns (ε := ε) engine columns row1 = mapColumns engine columns row2 := by
  unfold mapColumns
  split
  · rename_i cs
    exact arrayMap_congr _ _ cs (fun c hc => getV_of_agreeOn engine row1 row2 c (h cs rfl c hc))
  · rfl

/-- C14: two payloads without an error message that have the same `columns`
and whose rows agree pairwise under every entry of `columns` settle `query`
alike, with the same grid: the fields of a raw row that `columns` does not
name, the other fields of the payload, the statement, the connection and the
network do not show in it. -/
theorem query_grid_depends_on_listed_fields {ε : Type} (engine : Json → Json → Option JsValue)
    (statement1 statement2 : String) (connection1 connection2 : Connection)
    (net1 net2 : Net ε) (payload1 payload2 : Json) (rs1 rs2 : List Json)
    (hanswer1 : Answers net1 statement1 connection1 payload1)
    (hanswer2 : Answers net2 statement2 connection2 payload2)
    (herror1 : truthy (field payload1 "errorMessage") = false)
    (herror2 : truthy (field payload2 "errorMessage") = false)
    (hcolumns : field payload1 "columns" = field payload2 "columns")
    (hrows1 : field payload1 "rows" = .json (.arr rs1))
    (hrows2 : field payload2 "rows" = .json (.arr rs2))
    (hagree : List.Forall₂
      (fun row1 row2 => ∀ cs, field payload1 "columns" = .json (.arr cs) →
        ∀ c ∈ cs, AgreeOn row1 row2 c) rs1 rs2) :
    (query engine statement1 connection1 net1).1
      = (query engine statement2 connection2 net2).1 := by
  rw [query_answers engine statement1 connection1 net1 payload1 hanswer1,
    query_answers engine statement2 connection2 net2 payload2 hanswer2,
    settle_falsy_eq engine payload1 herror1, settle_falsy_eq engine payload2 herror2,
    ← hcolumns, hrows1, hrows2]
  have hmap : arrayMap (mapColumns (ε := ε) engine (field payload1 "columns")) rs1
      = arrayMap (mapColumns engine (field payload1 "columns")) rs2 :=
    arrayMap_forall₂ _ _ rs1 rs2
      (hagree.imp (fun row1 row2 h =>
        mapColumns_of_agreeOn engine (field payload1 "columns") row1 row2 h))
  simp only [mapRows, hmap]

theorem query_grid_depends_on_listed_fields_witness :
    (query plainEngine "SELECT a, b FROM t" otherConnection (netOf variantPayload)).1
        = .ok { rows := [[.json (.num 1), .json (.str "x")], [.json (.num 2), .undefined]]
                columnnames := .json (.arr [.str "a", .str "b"]) }
      ∧ (query plainEngine "SELECT 1" sampleConnection (netOf samplePayload)).1
          = (query plainEngine "SELECT a, b FROM t" otherConnection (netOf variantPayload)).1 :=
  ⟨rfl,
   query_grid_depends_on_listed_fields plainEngine "SELECT 1" "SELECT a, b FROM t"
    sampleConnection otherConnection (netOf samplePayload) (netOf variantPayload)
    samplePayload variantPayload
    [.obj [("a", .num 1), ("b", .str "x")], .obj [("z", .bool true), ("a", .num 2)]]
    [.obj [("b", .str "x"), ("secret", .str "s"), ("a", .num 1)], .obj [("a", .num 2)]]
    (answers_netOf _ _ _) (answers_netOf _ _ _) (by decide) (by decide) rfl rfl rfl
    (by
      have hcs : ∀ cs, field samplePayload "columns" = .json (.arr cs) →
          cs = [.str "a", .str "b"] := by
        intro cs h
        have h2 : field samplePayload "columns" = .json (.arr [.str "a", .str "b"]) := rfl
        rw [h2] at h
        simp only [JsValue.json.injEq, Json.arr.injEq] at h
        exact h.symm
      refine List.Forall₂.cons ?_ (List.Forall₂.cons ?_ List.Forall₂.nil)
      · intro cs h c hc
        rw [hcs cs h] at hc
        simp only [List.mem_cons, List.mem_singleton, List.not_mem_nil, or_false] at hc
        rcases hc with rfl | rfl <;> exact rfl
      · intro cs h c hc
        rw [hcs cs h] at hc
        simp only [List.mem_cons, List.mem_singleton, List.not_mem_nil, or_false] at hc
        rcases hc with rfl | rfl <;> exact rfl)⟩

end ApacheDrill
